import Mathlib

/-!
# Verification of the cinder HTTP client library

A shallow embedding of `src/cinder/base_client.py`, `src/cinder/client.py`
and `src/cinder/sync_client.py`, together with theorems settling the
spec claims about the request/response contract, header construction,
query-parameter building, client lifecycle and convenience constructors.

The generated Pydantic models (`cinder.generated.models`) are not part of
the core sources; the spec treats them as an opaque schema contract.  Where
their behaviour decides a claim (serialization with `exclude_none`,
validation of response bodies) the behaviour is modelled from the spec and
marked as such in the doc comment.
-/

namespace Cinder

/-- JSON values, the wire representation exchanged with the service. -/
inductive Json : Type where
  | null : Json
  | bool (b : Bool) : Json
  | num (n : Int) : Json
  | str (s : String) : Json
  | arr (items : List Json) : Json
  | obj (fields : List (String × Json)) : Json

/-- A Python `dict` with `V`-typed values, as an ordered association list
with distinct keys (insertion order preserved, as in CPython). -/
abbrev Dict (V : Type) : Type := List (String × V)

namespace Dict

/-- `d[k]` lookup, `d.get(k)` in Python. -/
def get? {V : Type} (d : Dict V) (k : String) : Option V :=
  match d with
  | [] => none
  | (k', v) :: rest => if k' = k then some v else get? rest k

/-- `k in d` membership test. -/
def contains {V : Type} (d : Dict V) (k : String) : Bool :=
  (d.get? k).isSome

/-- `d[k] = v`: replace the value at `k` keeping its position if present,
append `(k, v)` otherwise — CPython assignment semantics. -/
def set {V : Type} (d : Dict V) (k : String) (v : V) : Dict V :=
  match d with
  | [] => [(k, v)]
  | (k', v') :: rest =>
      if k' = k then (k', v) :: rest else (k', v') :: set rest k v

/-- `d.setdefault(k, v)`: insert `(k, v)` only when `k` is absent. -/
def setdefault {V : Type} (d : Dict V) (k : String) (v : V) : Dict V :=
  if d.contains k then d else d ++ [(k, v)]

/-- `d.update(kvs)`: assign every pair of `kvs` into `d`, in order. -/
def update {V : Type} (d : Dict V) (kvs : List (String × V)) : Dict V :=
  kvs.foldl (fun acc kv => acc.set kv.1 kv.2) d

/-- The keys of the dict, in order. -/
def keys {V : Type} (d : Dict V) : List String := d.map Prod.fst

end Dict

/-- `s.rstrip("/")`: drop every trailing `/` character. -/
def rstripSlash (s : String) : String :=
  ⟨(s.data.reverse.dropWhile (fun c => c = '/')).reverse⟩

/-- `BaseCinderClient.__init__` header preparation
(`base_client.py` lines 27–30): start from the caller-supplied headers and
`setdefault` the `Authorization` and `Content-Type` entries. -/
def mkHeaders (token : String) (callerHeaders : Dict String) : Dict String :=
  let headers := callerHeaders
  let headers := headers.setdefault "Authorization" ("Bearer " ++ token)
  headers.setdefault "Content-Type" "application/json"

/-- `BaseCinderClient._build_params` (`base_client.py` lines 34–56):
start from an empty dict, set `limit` and `offset` when supplied,
then merge the extra parameters with `params.update(extra_params)`. -/
def build_params (limit offset : Option Int) (extra_params : List (String × Json)) :
    Dict Json :=
  let params : Dict Json := []
  let params := match limit with
    | some l => params.set "limit" (Json.num l)
    | none => params
  let params := match offset with
    | some o => params.set "offset" (Json.num o)
    | none => params
  params.update extra_params

/-- An HTTP response as the client observes it: status line plus JSON body. -/
structure HttpResponse : Type where
  status : Nat
  body : Json

/-- An HTTP request as the client issues it: verb, path, query parameters
and optional JSON body.  Headers are client-level defaults (see
`mkHeaders`) applied by the transport to every request. -/
structure HttpRequest : Type where
  method : String
  path : String
  params : Dict Json
  body : Option Json

/-- A JSON value's primitive type, for schema validation. -/
inductive JsonTy : Type where
  | tNull | tBool | tNum | tStr | tArr | tObj

/-- Type test on a JSON value. -/
def Json.hasTy : Json → JsonTy → Bool
  | .null, .tNull => true
  | .bool _, .tBool => true
  | .num _, .tNum => true
  | .str _, .tStr => true
  | .arr _, .tArr => true
  | .obj _, .tObj => true
  | _, _ => false

/-- One field of a response schema: its key, expected type, and whether the
field is required. -/
structure FieldSpec : Type where
  name : String
  ty : JsonTy
  required : Bool

/-- A response model's schema, as a list of field specifications. -/
abbrev Schema : Type := List FieldSpec

/-- How an attempted validation of a 2xx body can fail. -/
inductive ValidationError : Type where
  | notAnObject : ValidationError
  | missingField (name : String) : ValidationError
  | wrongType (name : String) : ValidationError

/-- Modelled from the spec: Pydantic `Model.model_validate` over the
generated models (`cinder.generated.models`, not in the core sources).
Per the spec, a 2xx body must be a JSON object matching the expected
schema, "failing with a validation error if the body's shape does not
match the expected schema (missing required fields, wrong types)";
on success every schema field present in the JSON is populated from it. -/
def validateFields (fields : Dict Json) : Schema → Except ValidationError (Dict Json)
  | [] => .ok []
  | f :: rest =>
      match fields.get? f.name with
      | none =>
          if f.required then .error (.missingField f.name)
          else validateFields fields rest
      | some v =>
          if v.hasTy f.ty then
            (validateFields fields rest).map (fun tl => (f.name, v) :: tl)
          else .error (.wrongType f.name)

/-- Modelled from the spec: validate a whole JSON body against a schema;
a non-object body cannot match any model's shape. -/
def validateSchema (s : Schema) (j : Json) : Except ValidationError (Dict Json) :=
  match j with
  | .obj fields => validateFields fields s
  | _ => .error .notAnObject

/-- Whether a JSON object's fields match a schema: every required field
present, every present schema field of the expected type. -/
def matchesSchema (s : Schema) (fields : Dict Json) : Bool :=
  s.all (fun f =>
    match fields.get? f.name with
    | none => !f.required
    | some v => v.hasTy f.ty)

/-- Errors an endpoint call can surface to its caller. -/
inductive CinderError : Type where
  /-- `httpx.HTTPStatusError`, carrying the response status code and body. -/
  | httpStatus (status : Nat) (body : Json) : CinderError
  /-- A Pydantic validation error from parsing a 2xx body. -/
  | validation (e : ValidationError) : CinderError

/-- `response.raise_for_status()` as `httpx` defines it: succeed exactly on
a 2xx status, otherwise raise an `HTTPStatusError` carrying the status
code and the response body. -/
def raiseForStatus (r : HttpResponse) : Except CinderError Unit :=
  if 200 ≤ r.status ∧ r.status < 300 then .ok () else
    .error (.httpStatus r.status r.body)

/-- Modelled from the spec: an instance of a generated Pydantic input model
— an ordered record of fields, optional fields possibly absent (`none`,
the Python `None`). -/
abbrev TypedValue : Type := List (String × Option Json)

/-- Modelled from the spec: the field dict produced by
`model.model_dump(mode="json", exclude_none=True)` — every field whose
value is absent/unset (`None`) is omitted. -/
def model_dump_fields (v : TypedValue) : Dict Json :=
  v.filterMap (fun kv => kv.2.map (fun j => (kv.1, j)))

/-- Modelled from the spec: `model.model_dump(mode="json", exclude_none=True)`
on a generated model — serialize to a JSON object with absent/unset
optional fields omitted, not emitted as null. -/
def model_dump (v : TypedValue) : Json :=
  .obj (model_dump_fields v)

/-- The names of the generated response models the endpoint surface
deserializes into. -/
inductive ModelName : Type where
  | report | pagedReport | decisionSchema | pagedDecisionSchema
  | appeal | pagedAppeal | schemaResponse
  | createEntitiesAndRelationshipsResponseSchema
  | statusOkResponse | workflowResult
deriving DecidableEq

/-- Modelled from the spec: the response schema attached to each generated
model.  The spec treats the generated models as an opaque schema contract;
only the shapes it names are pinned down (`SchemaResponse` with its two
list fields, paged wrappers with an items list, a status string for the
StatusOk shape, workflow execution details — a `path` — for
`WorkflowResult`), the rest are left as bare object schemas. -/
def modelSchema : ModelName → Schema
  | .schemaResponse =>
      [⟨"entity_schemas", .tArr, true⟩, ⟨"relationship_schemas", .tArr, true⟩]
  | .pagedReport => [⟨"items", .tArr, true⟩]
  | .pagedDecisionSchema => [⟨"items", .tArr, true⟩]
  | .pagedAppeal => [⟨"items", .tArr, true⟩]
  | .statusOkResponse => [⟨"status", .tStr, true⟩]
  | .workflowResult => [⟨"path", .tStr, true⟩]
  | _ => []

/-- `Model.model_validate(response.json())` for a named response model. -/
def model_validate (m : ModelName) (j : Json) : Except ValidationError (Dict Json) :=
  validateSchema (modelSchema m) j

/-- The result of one endpoint call: a typed response (a validated model
instance), or the raw status-checked response of the generic `request`
escape hatch. -/
inductive EndpointResult : Type where
  | typed (model : ModelName) (fields : Dict Json) : EndpointResult
  | raw (r : HttpResponse) : EndpointResult

/-- The arguments of one endpoint method, one constructor per operation of
the endpoint surface. -/
inductive EndpointArgs : Type where
  | create_report (report : TypedValue)
  | list_reports (limit offset : Option Int) (filters : List (String × Json))
  | create_decision (decision : TypedValue)
  | get_decision (decision_id : String)
  | list_decisions (limit offset : Option Int) (filters : Option TypedValue)
      (extra_params : List (String × Json))
  | get_appeal (appeal_id : String)
  | list_appeals (limit offset : Option Int) (filters : List (String × Json))
  | get_graph_schema
  | upsert (entities relationships : Option (List Json))
  | send_event (event : TypedValue)
  | send_event_sync (event : TypedValue)
  | request (method : String) (path : String) (body : Option Json)

namespace CinderClient

/-!  The async client's endpoint surface, transcribed method by method from
`src/cinder/client.py`.  `awaits` have no observable effect in this
embedding; each method is split into the request it issues
(`buildRequest`) and the handling of the response it receives
(`handleResponse`). -/

/-- The one HTTP request each endpoint method of `CinderClient` issues. -/
def buildRequest : EndpointArgs → HttpRequest
  | .create_report report =>
      ⟨"POST", "/api/v1/create_report/", [], some (model_dump report)⟩
  | .list_reports limit offset filters =>
      ⟨"GET", "/api/v1/report/", build_params limit offset filters, none⟩
  | .create_decision decision =>
      ⟨"POST", "/api/v1/create_decision/", [], some (model_dump decision)⟩
  | .get_decision decision_id =>
      ⟨"GET", "/api/v1/decisions/" ++ decision_id ++ "/", [], none⟩
  | .list_decisions limit offset filters extra_params =>
      let params := build_params limit offset extra_params
      let params := match filters with
        | some f => params.update (model_dump_fields f)
        | none => params
      ⟨"GET", "/api/v1/decisions/", params, none⟩
  | .get_appeal appeal_id =>
      ⟨"GET", "/api/v1/appeal/" ++ appeal_id ++ "/", [], none⟩
  | .list_appeals limit offset filters =>
      ⟨"GET", "/api/v1/appeal/", build_params limit offset filters, none⟩
  | .get_graph_schema =>
      ⟨"GET", "/api/v1/graph/schema/", [], none⟩
  | .upsert entities relationships =>
      let payload : TypedValue :=
        [("entities", entities.map Json.arr),
         ("relationships", relationships.map Json.arr)]
      ⟨"POST", "/api/v1/graph/", [], some (model_dump payload)⟩
  | .send_event event =>
      ⟨"POST", "/api/v2/workflows/event/", [], some (model_dump event)⟩
  | .send_event_sync event =>
      ⟨"POST", "/api/v2/workflows/event/sync/", [], some (model_dump event)⟩
  | .request method path body =>
      ⟨method, path, [], body⟩

/-- What each endpoint method of `CinderClient` does with the response:
`response.raise_for_status()` followed by the declared deserialization. -/
def handleResponse : EndpointArgs → HttpResponse → Except CinderError EndpointResult
  | .create_report _, r => do
      raiseForStatus r
      let fields ← (model_validate .report r.body).mapError .validation
      return .typed .report fields
  | .list_reports _ _ _, r => do
      raiseForStatus r
      let fields ← (model_validate .pagedReport r.body).mapError .validation
      return .typed .pagedReport fields
  | .create_decision _, r => do
      raiseForStatus r
      let fields ← (model_validate .decisionSchema r.body).mapError .validation
      return .typed .decisionSchema fields
  | .get_decision _, r => do
      raiseForStatus r
      let fields ← (model_validate .decisionSchema r.body).mapError .validation
      return .typed .decisionSchema fields
  | .list_decisions _ _ _ _, r => do
      raiseForStatus r
      let fields ← (model_validate .pagedDecisionSchema r.body).mapError .validation
      return .typed .pagedDecisionSchema fields
  | .get_appeal _, r => do
      raiseForStatus r
      let fields ← (model_validate .appeal r.body).mapError .validation
      return .typed .appeal fields
  | .list_appeals _ _ _, r => do
      raiseForStatus r
      let fields ← (model_validate .pagedAppeal r.body).mapError .validation
      return .typed .pagedAppeal fields
  | .get_graph_schema, r => do
      raiseForStatus r
      let fields ← (model_validate .schemaResponse r.body).mapError .validation
      return .typed .schemaResponse fields
  | .upsert _ _, r => do
      raiseForStatus r
      let fields ←
        (model_validate .createEntitiesAndRelationshipsResponseSchema r.body).mapError
          .validation
      return .typed .createEntitiesAndRelationshipsResponseSchema fields
  | .send_event _, r => do
      raiseForStatus r
      let fields ← (model_validate .statusOkResponse r.body).mapError .validation
      return .typed .statusOkResponse fields
  | .send_event_sync _, r => do
      raiseForStatus r
      if r.status = 202 then
        let fields ← (model_validate .statusOkResponse r.body).mapError .validation
        return .typed .statusOkResponse fields
      else
        let fields ← (model_validate .workflowResult r.body).mapError .validation
        return .typed .workflowResult fields
  | .request _ _ _, r => do
      raiseForStatus r
      return .raw r

end CinderClient

namespace SyncCinderClient

/-!  The blocking client's endpoint surface, transcribed method by method
from `src/cinder/sync_client.py`. -/

/-- The one HTTP request each endpoint method of `SyncCinderClient` issues. -/
def buildRequest : EndpointArgs → HttpRequest
  | .create_report report =>
      ⟨"POST", "/api/v1/create_report/", [], some (model_dump report)⟩
  | .list_reports limit offset filters =>
      ⟨"GET", "/api/v1/report/", build_params limit offset filters, none⟩
  | .create_decision decision =>
      ⟨"POST", "/api/v1/create_decision/", [], some (model_dump decision)⟩
  | .get_decision decision_id =>
      ⟨"GET", "/api/v1/decisions/" ++ decision_id ++ "/", [], none⟩
  | .list_decisions limit offset filters extra_params =>
      let params := build_params limit offset extra_params
      let params := match filters with
        | some f => params.update (model_dump_fields f)
        | none => params
      ⟨"GET", "/api/v1/decisions/", params, none⟩
  | .get_appeal appeal_id =>
      ⟨"GET", "/api/v1/appeal/" ++ appeal_id ++ "/", [], none⟩
  | .list_appeals limit offset filters =>
      ⟨"GET", "/api/v1/appeal/", build_params limit offset filters, none⟩
  | .get_graph_schema =>
      ⟨"GET", "/api/v1/graph/schema/", [], none⟩
  | .upsert entities relationships =>
      let payload : TypedValue :=
        [("entities", entities.map Json.arr),
         ("relationships", relationships.map Json.arr)]
      ⟨"POST", "/api/v1/graph/", [], some (model_dump payload)⟩
  | .send_event event =>
      ⟨"POST", "/api/v2/workflows/event/", [], some (model_dump event)⟩
  | .send_event_sync event =>
      ⟨"POST", "/api/v2/workflows/event/sync/", [], some (model_dump event)⟩
  | .request method path body =>
      ⟨method, path, [], body⟩

/-- What each endpoint method of `SyncCinderClient` does with the response:
`response.raise_for_status()` followed by the declared deserialization. -/
def handleResponse : EndpointArgs → HttpResponse → Except CinderError EndpointResult
  | .create_report _, r => do
      raiseForStatus r
      let fields ← (model_validate .report r.body).mapError .validation
      return .typed .report fields
  | .list_reports _ _ _, r => do
      raiseForStatus r
      let fields ← (model_validate .pagedReport r.body).mapError .validation
      return .typed .pagedReport fields
  | .create_decision _, r => do
      raiseForStatus r
      let fields ← (model_validate .decisionSchema r.body).mapError .validation
      return .typed .decisionSchema fields
  | .get_decision _, r => do
      raiseForStatus r
      let fields ← (model_validate .decisionSchema r.body).mapError .validation
      return .typed .decisionSchema fields
  | .list_decisions _ _ _ _, r => do
      raiseForStatus r
      let fields ← (model_validate .pagedDecisionSchema r.body).mapError .validation
      return .typed .pagedDecisionSchema fields
  | .get_appeal _, r => do
      raiseForStatus r
      let fields ← (model_validate .appeal r.body).mapError .validation
      return .typed .appeal fields
  | .list_appeals _ _ _, r => do
      raiseForStatus r
      let fields ← (model_validate .pagedAppeal r.body).mapError .validation
      return .typed .pagedAppeal fields
  | .get_graph_schema, r => do
      raiseForStatus r
      let fields ← (model_validate .schemaResponse r.body).mapError .validation
      return .typed .schemaResponse fields
  | .upsert _ _, r => do
      raiseForStatus r
      let fields ←
        (model_validate .createEntitiesAndRelationshipsResponseSchema r.body).mapError
          .validation
      return .typed .createEntitiesAndRelationshipsResponseSchema fields
  | .send_event _, r => do
      raiseForStatus r
      let fields ← (model_validate .statusOkResponse r.body).mapError .validation
      return .typed .statusOkResponse fields
  | .send_event_sync _, r => do
      raiseForStatus r
      if r.status = 202 then
        let fields ← (model_validate .statusOkResponse r.body).mapError .validation
        return .typed .statusOkResponse fields
      else
        let fields ← (model_validate .workflowResult r.body).mapError .validation
        return .typed .workflowResult fields
  | .request _ _ _, r => do
      raiseForStatus r
      return .raw r

end SyncCinderClient

/-- The response model each endpoint method declares it deserializes a 2xx
body into, read off the return annotations of `client.py` and
`sync_client.py`; for `send_event_sync` it depends on the status code
(202 versus other 2xx), and the generic `request` method declares no
model (it returns the raw status-checked response). -/
def declaredModel : EndpointArgs → HttpResponse → Option ModelName
  | .create_report _, _ => some .report
  | .list_reports _ _ _, _ => some .pagedReport
  | .create_decision _, _ => some .decisionSchema
  | .get_decision _, _ => some .decisionSchema
  | .list_decisions _ _ _ _, _ => some .pagedDecisionSchema
  | .get_appeal _, _ => some .appeal
  | .list_appeals _ _ _, _ => some .pagedAppeal
  | .get_graph_schema, _ => some .schemaResponse
  | .upsert _ _, _ => some .createEntitiesAndRelationshipsResponseSchema
  | .send_event _, _ => some .statusOkResponse
  | .send_event_sync _, r =>
      some (if r.status = 202 then .statusOkResponse else .workflowResult)
  | .request _ _ _, _ => none

/-- The configuration a constructed client instance holds
(`BaseCinderClient.__init__` plus the transport construction): the
trailing-slash-stripped base URL, the token, and the prepared headers. -/
structure ClientConfig : Type where
  base_url : String
  token : String
  headers : Dict String
deriving DecidableEq

/-- Construct a client (`CinderClient.__init__` / `SyncCinderClient.__init__`
via `BaseCinderClient.__init__`): strip trailing slashes from the base URL,
keep the token, prepare headers with `mkHeaders`.  No HTTP request is
involved; the transport object is only allocated. -/
def mkClient (base_url token : String) (callerHeaders : Dict String) : ClientConfig :=
  ⟨rstripSlash base_url, token, mkHeaders token callerHeaders⟩

/-- The `ValueError` raised by the convenience constructors. -/
inductive ConfigError : Type where
  | valueError (message : String) : ConfigError
deriving DecidableEq

/-- The message of the `ValueError` for a missing token. -/
def tokenMissingMessage : String :=
  "API token must be provided via 'token' parameter or CINDER_API_TOKEN envi" ++
    "ronment variable"

/-- The message of the `ValueError` for a missing base URL. -/
def baseUrlMissingMessage : String :=
  "Base URL must be provided via 'base_url' parameter or CINDER_API_BASE_URL" ++
    " environment variable"

/-- `get_client` (`client.py` lines 451–506): resolve the token from the
argument or `CINDER_API_TOKEN`, then the base URL from the argument or
`CINDER_API_BASE_URL`, raising `ValueError` when a value is `None` and the
environment lookup yields `None` or a falsy (empty) string; then construct
the client.  `env` is the process environment; the second component of the
result records every HTTP request issued during the call — none. -/
def get_client (token base_url : Option String) (env : String → Option String) :
    Except ConfigError ClientConfig × List HttpRequest :=
  let tokenR : Except ConfigError String :=
    match token with
    | some t => .ok t
    | none =>
        match env "CINDER_API_TOKEN" with
        | some t =>
            if t = "" then .error (.valueError tokenMissingMessage) else .ok t
        | none => .error (.valueError tokenMissingMessage)
  let result : Except ConfigError ClientConfig := do
    let t ← tokenR
    let u ← match base_url with
      | some u => Except.ok u
      | none =>
          match env "CINDER_API_BASE_URL" with
          | some u =>
              if u = "" then Except.error (.valueError baseUrlMissingMessage)
              else Except.ok u
          | none => Except.error (.valueError baseUrlMissingMessage)
    return mkClient u t []
  (result, [])

/-- `get_sync_client` (`sync_client.py` lines 449–504): the blocking-client
convenience constructor, with the same resolution logic as `get_client`. -/
def get_sync_client (token base_url : Option String) (env : String → Option String) :
    Except ConfigError ClientConfig × List HttpRequest :=
  let tokenR : Except ConfigError String :=
    match token with
    | some t => .ok t
    | none =>
        match env "CINDER_API_TOKEN" with
        | some t =>
            if t = "" then .error (.valueError tokenMissingMessage) else .ok t
        | none => .error (.valueError tokenMissingMessage)
  let result : Except ConfigError ClientConfig := do
    let t ← tokenR
    let u ← match base_url with
      | some u => Except.ok u
      | none =>
          match env "CINDER_API_BASE_URL" with
          | some u =>
              if u = "" then Except.error (.valueError baseUrlMissingMessage)
              else Except.ok u
          | none => Except.error (.valueError baseUrlMissingMessage)
    return mkClient u t []
  (result, [])

/-! ## Client lifecycle -/

/-- The state of a client's underlying connection: whether it has been
closed, and how many times the underlying resources were actually
released. -/
structure ConnState : Type where
  closed : Bool
  releases : Nat
deriving DecidableEq

/-- Modelled from the spec: the transport-level close
(`httpx.AsyncClient.aclose` / `httpx.Client.close`, external to the core
sources).  Per the spec, releasing an already-released client must not
raise; the transport close is a no-op on a closed connection and releases
the underlying resources once otherwise. -/
def ConnState.releaseConn (s : ConnState) : ConnState :=
  if s.closed then s else ⟨true, s.releases + 1⟩

/-- A live client object: its configuration and its connection state. -/
structure ClientObj : Type where
  config : ClientConfig
  conn : ConnState
deriving DecidableEq

/-- `close` (`client.py` lines 85–87 / `sync_client.py` lines 85–87): close
the underlying HTTP client. -/
def ClientObj.close (c : ClientObj) : ClientObj :=
  { c with conn := c.conn.releaseConn }

/-- `__aenter__` / `__enter__` (lines 77–79 of both client files): entering
the scope returns the client object itself. -/
def ClientObj.enterScope (c : ClientObj) : ClientObj := c

/-- `__aexit__` / `__exit__` (lines 81–83 of both client files): exiting
the scope calls `close`, whatever the exit reason. -/
def ClientObj.exitScope (c : ClientObj) : ClientObj := c.close

/-- How control leaves a `with` block: a normal value, or a raised error
(covering early exits, which Python also routes through `__exit__`). -/
inductive Outcome (A : Type) : Type where
  | normal (a : A) : Outcome A
  | raised (e : CinderError) : Outcome A

/-- The `async with` / `with` statement around a client: enter the scope,
run the body on what `__enter__` returned, and run `__exit__` on every
exit path — normal and raised alike. -/
def withScope {A : Type} (c : ClientObj) (body : ClientObj → Outcome A × ClientObj) :
    Outcome A × ClientObj :=
  let entered := c.enterScope
  let (out, c1) := body entered
  (out, c1.exitScope)

/-! ## Reference-level view of header preparation

`BaseCinderClient.__init__` binds `self.headers` to the very dict object
the caller passed (`kwargs.pop("headers", {})`) and calls `setdefault` on
it, mutating the caller's object.  To state this aliasing, dict objects
live in a small heap addressed by `Nat` references. -/

/-- A heap of header-dict objects, addressed by `Nat` references. -/
abbrev Heap : Type := Nat → Dict String

/-- Dereference a dict object. -/
def Heap.read (h : Heap) (ref : Nat) : Dict String := h ref

/-- Overwrite a dict object in place. -/
def Heap.write (h : Heap) (ref : Nat) (d : Dict String) : Heap :=
  fun r => if r = ref then d else h r

/-- `BaseCinderClient.__init__` header preparation at the reference level
(`base_client.py` lines 27–30): `self.headers` is bound to the caller's
dict object itself, and the two `setdefault` calls write through that
reference.  Returns the updated heap and the reference `self.headers`
holds. -/
def initBaseHeaders (h : Heap) (headersRef : Nat) (token : String) : Heap × Nat :=
  let d := h.read headersRef
  let d := d.setdefault "Authorization" ("Bearer " ++ token)
  let d := d.setdefault "Content-Type" "application/json"
  (h.write headersRef d, headersRef)

/-! ## Lemmas about the dict embedding -/

namespace Dict

theorem get?_set_self {V : Type} (d : Dict V) (k : String) (v : V) :
    (d.set k v).get? k = some v := by
  induction d with
  | nil => simp [Dict.set, Dict.get?]
  | cons kv rest ih =>
      obtain ⟨k1, v1⟩ := kv
      by_cases h1 : k1 = k
      · simp [Dict.set, h1, Dict.get?]
      · simp [Dict.set, h1, Dict.get?, ih]

theorem get?_set_ne {V : Type} (d : Dict V) {k k' : String} (v : V) (h : k' ≠ k) :
    (d.set k' v).get? k = d.get? k := by
  induction d with
  | nil => simp [Dict.set, Dict.get?, h]
  | cons kv rest ih =>
      obtain ⟨k1, v1⟩ := kv
      by_cases h1 : k1 = k'
      · subst h1
        simp [Dict.set, Dict.get?, h, ih]
      · simp [Dict.set, h1, Dict.get?, ih]

theorem get?_append {V : Type} (d d' : Dict V) (k : String) :
    Dict.get? (d ++ d') k =
      match d.get? k with
      | some v => some v
      | none => d'.get? k := by
  induction d with
  | nil => simp [Dict.get?]
  | cons kv rest ih =>
      obtain ⟨k1, v1⟩ := kv
      by_cases h1 : k1 = k <;> simp [Dict.get?, h1, ih]

theorem get?_setdefault_of_isSome {V : Type} {d : Dict V} {k : String} {v : V}
    (k' : String) (v' : V) (h : d.get? k = some v) :
    (d.setdefault k' v').get? k = some v := by
  unfold Dict.setdefault
  cases hc : d.contains k'
  · simp [get?_append, h]
  · simp [h]

theorem get?_setdefault_self_of_none {V : Type} {d : Dict V} {k : String} (v : V)
    (h : d.get? k = none) : (d.setdefault k v).get? k = some v := by
  unfold Dict.setdefault
  have hc : d.contains k = false := by simp [Dict.contains, h]
  simp [hc, get?_append, h, Dict.get?]

theorem get?_setdefault_ne {V : Type} {d : Dict V} {k k' : String} (v : V)
    (h : k' ≠ k) : (d.setdefault k' v).get? k = d.get? k := by
  unfold Dict.setdefault
  cases hc : d.contains k'
  · cases hg : d.get? k <;> simp [get?_append, hg, Dict.get?, h]
  · simp

theorem contains_setdefault_self {V : Type} (d : Dict V) (k : String) (v : V) :
    (d.setdefault k v).contains k = true := by
  cases hg : d.get? k with
  | none => simp [Dict.contains, get?_setdefault_self_of_none v hg]
  | some w => simp [Dict.contains, get?_setdefault_of_isSome k v hg]

theorem get?_update_not_mem {V : Type} (kvs : List (String × V)) (d : Dict V)
    (k : String) (h : k ∉ kvs.map Prod.fst) :
    (d.update kvs).get? k = d.get? k := by
  induction kvs generalizing d with
  | nil => rfl
  | cons kv rest ih =>
      simp only [List.map_cons, List.mem_cons, not_or] at h
      obtain ⟨h1, h2⟩ := h
      show ((d.set kv.1 kv.2).update rest).get? k = d.get? k
      rw [ih _ h2, get?_set_ne _ _ (Ne.symm h1)]

theorem get?_update_mem {V : Type} (kvs : List (String × V)) (d : Dict V)
    (k : String) (v : V) (hnd : (kvs.map Prod.fst).Nodup) (h : (k, v) ∈ kvs) :
    (d.update kvs).get? k = some v := by
  induction kvs generalizing d with
  | nil => cases h
  | cons kv rest ih =>
      rw [List.map_cons, List.nodup_cons] at hnd
      obtain ⟨hk1, hnd'⟩ := hnd
      rcases List.mem_cons.mp h with heq | hmem
      · subst heq
        show ((d.set k v).update rest).get? k = some v
        rw [get?_update_not_mem rest _ k hk1, get?_set_self]
      · exact ih (d.set kv.1 kv.2) hnd' hmem

end Dict

/-! ## Lemmas about the heap view -/

theorem Heap.read_write_self (h : Heap) (ref : Nat) (d : Dict String) :
    (h.write ref d).read ref = d := by
  simp [Heap.read, Heap.write]

/-! ## Lemmas about trailing-slash stripping -/

theorem head?_dropWhile_slash (l : List Char) (a : Char)
    (h : (l.dropWhile (fun c => c = '/')).head? = some a) : a ≠ '/' := by
  induction l with
  | nil => simp [List.dropWhile_nil] at h
  | cons c t ih =>
      by_cases hc : c = '/'
      · rw [List.dropWhile_cons] at h
        simp only [hc, decide_True] at h
        exact ih h
      · rw [List.dropWhile_cons] at h
        simp only [hc, decide_False, Bool.false_eq_true, if_false, List.head?_cons,
          Option.some.injEq] at h
        exact h ▸ hc

theorem rstripSlash_decomp (s : String) :
    s.data = (rstripSlash s).data ++
      (s.data.reverse.takeWhile (fun c => c = '/')).reverse := by
  show s.data = (s.data.reverse.dropWhile (fun c => c = '/')).reverse ++
    (s.data.reverse.takeWhile (fun c => c = '/')).reverse
  rw [← List.reverse_append, List.takeWhile_append_dropWhile, List.reverse_reverse]

theorem rstripSlash_trailing_all_slash (s : String) :
    ∀ c ∈ (s.data.reverse.takeWhile (fun c => c = '/')).reverse, c = '/' := by
  intro c hc
  have := List.mem_takeWhile_imp (List.mem_reverse.mp hc)
  exact of_decide_eq_true this

theorem rstripSlash_no_trailing (s : String) (a : Char)
    (h : (rstripSlash s).data.getLast? = some a) : a ≠ '/' := by
  rw [show (rstripSlash s).data = (s.data.reverse.dropWhile (fun c => c = '/')).reverse
        from rfl,
      List.getLast?_reverse] at h
  exact head?_dropWhile_slash _ _ h

/-! ## Lemmas about schema validation -/

theorem validateFields_ok_spec (s : Schema) (fields : Dict Json) (out : Dict Json)
    (h : validateFields fields s = .ok out) :
    (∀ kv ∈ out, fields.get? kv.1 = some kv.2) ∧
    (∀ f ∈ s, ((∃ w, (f.name, w) ∈ out) ↔ fields.contains f.name = true)) ∧
    (∀ f ∈ s, f.required = true → fields.contains f.name = true) := by
  induction s generalizing out with
  | nil =>
      simp only [validateFields, Except.ok.injEq] at h
      subst h
      simp
  | cons f rest ih =>
      unfold validateFields at h
      cases hg : fields.get? f.name with
      | none =>
          simp only [hg] at h
          cases hr : f.required with
          | true => simp [hr] at h
          | false =>
              simp only [hr, Bool.false_eq_true, if_false] at h
              obtain ⟨h1, h2, h3⟩ := ih out h
              refine ⟨h1, ?_, ?_⟩
              · intro g hgmem
                rcases List.mem_cons.mp hgmem with heq | hmem
                · subst heq
                  constructor
                  · rintro ⟨w, hw⟩
                    have := h1 _ hw
                    rw [hg] at this
                    cases this
                  · intro hcon
                    rw [Dict.contains, hg] at hcon
                    cases hcon
                · exact h2 g hmem
              · intro g hgmem hreq
                rcases List.mem_cons.mp hgmem with heq | hmem
                · subst heq; rw [hreq] at hr; cases hr
                · exact h3 g hmem hreq
      | some v =>
          simp only [hg] at h
          cases ht : v.hasTy f.ty with
          | false => simp [ht] at h
          | true =>
              simp only [ht, if_true] at h
              cases hv : validateFields fields rest with
              | error e => rw [hv] at h; simp [Except.map] at h
              | ok tl =>
                  rw [hv] at h
                  simp only [Except.map, Except.ok.injEq] at h
                  subst h
                  obtain ⟨h1, h2, h3⟩ := ih tl hv
                  refine ⟨?_, ?_, ?_⟩
                  · intro kv hkv
                    rcases List.mem_cons.mp hkv with heq | hmem
                    · subst heq; exact hg
                    · exact h1 kv hmem
                  · intro g hgmem
                    rcases List.mem_cons.mp hgmem with heq | hmem
                    · subst heq
                      constructor
                      · intro _; simp [Dict.contains, hg]
                      · intro _; exact ⟨v, List.mem_cons_self _ _⟩
                    · by_cases hname : g.name = f.name
                      · constructor
                        · intro _; simp [Dict.contains, hname, hg]
                        · intro _
                          exact ⟨v, by rw [hname]; exact List.mem_cons_self _ _⟩
                      · constructor
                        · rintro ⟨w, hw⟩
                          rcases List.mem_cons.mp hw with heq2 | hmem2
                          · exact absurd (congrArg Prod.fst heq2) hname
                          · exact (h2 g hmem).mp ⟨w, hmem2⟩
                        · intro hcon
                          obtain ⟨w, hw⟩ := (h2 g hmem).mpr hcon
                          exact ⟨w, List.mem_cons_of_mem _ hw⟩
                  · intro g hgmem hreq
                    rcases List.mem_cons.mp hgmem with heq | hmem
                    · subst heq; simp [Dict.contains, hg]
                    · exact h3 g hmem hreq

theorem matchesSchema_cons (f : FieldSpec) (rest : Schema) (fields : Dict Json) :
    matchesSchema (f :: rest) fields =
      ((match fields.get? f.name with
        | none => !f.required
        | some v => v.hasTy f.ty) && matchesSchema rest fields) := by
  simp [matchesSchema, List.all_cons]

theorem validateFields_matches (s : Schema) (fields : Dict Json) :
    (∃ out, validateFields fields s = .ok out) ↔ matchesSchema s fields = true := by
  induction s with
  | nil => simp [validateFields, matchesSchema]
  | cons f rest ih =>
      rw [matchesSchema_cons]
      unfold validateFields
      cases hg : fields.get? f.name with
      | none =>
          cases hr : f.required with
          | true => simp [hr]
          | false => simpa [hr] using ih
      | some v =>
          cases ht : v.hasTy f.ty with
          | false => simp [ht]
          | true =>
              simp only [ht, if_true, Bool.true_and]
              rw [← ih]
              constructor
              · rintro ⟨out, hout⟩
                cases hv : validateFields fields rest with
                | error e => rw [hv] at hout; simp [Except.map] at hout
                | ok tl => exact ⟨tl, rfl⟩
              · rintro ⟨tl, htl⟩
                exact ⟨(f.name, v) :: tl, by rw [htl]; rfl⟩

/-! ## Small `Except` reduction lemmas -/

theorem except_bind_ok {ε α β : Type} (a : α) (f : α → Except ε β) :
    (Except.ok a >>= f) = f a := rfl

theorem except_bind_error {ε α β : Type} (e : ε) (f : α → Except ε β) :
    ((Except.error e : Except ε α) >>= f) = Except.error e := rfl

/-- Reassociate the validate-then-wrap pattern of every endpoint method
into a single map over the validation result. -/
theorem map_mapError_comm {ε ε' α β : Type} (g : ε → ε') (f : α → β)
    (x : Except ε α) :
    f <$> Except.mapError g x = Except.mapError g (Except.map f x) := by
  cases x <;> rfl

theorem validate_bind_typed (m : ModelName) (j : Json) :
    (Except.mapError CinderError.validation (model_validate m j) >>= fun fields =>
        pure (EndpointResult.typed m fields)) =
      Except.mapError CinderError.validation
        (Except.map (EndpointResult.typed m) (model_validate m j)) := by
  cases model_validate m j <;> rfl

/-! ## Claim theorems -/

/-- C3: the shared query-parameter builder starts from an empty mapping,
contains `limit` and `offset` exactly when the caller supplied non-absent
values (with exactly the supplied values), merges the additional filter
pairs in last so that a filter colliding with `limit`/`offset` overwrites
the earlier value, and leaves all other keys as the pre-merge mapping had
them; omitting `limit` and `offset` omits those keys entirely. -/
theorem claim_C3_build_params (limit offset : Option Int)
    (extra : List (String × Json)) (hnd : (extra.map Prod.fst).Nodup) :
    build_params none none [] = [] ∧
    build_params limit offset extra =
      Dict.update (build_params limit offset []) extra ∧
    (build_params limit offset []).contains "limit" = limit.isSome ∧
    (build_params limit offset []).contains "offset" = offset.isSome ∧
    (∀ l : Int, limit = some l →
      (build_params limit offset []).get? "limit" = some (Json.num l)) ∧
    (∀ o : Int, offset = some o →
      (build_params limit offset []).get? "offset" = some (Json.num o)) ∧
    (∀ k v, (k, v) ∈ extra →
      (build_params limit offset extra).get? k = some v) ∧
    (∀ k, k ∉ extra.map Prod.fst →
      (build_params limit offset extra).get? k =
        (build_params limit offset []).get? k) := by
  refine ⟨rfl, rfl, ?_, ?_, ?_, ?_, ?_, ?_⟩
  · cases limit <;> cases offset <;>
      simp [build_params, Dict.update, Dict.set, Dict.get?, Dict.contains]
  · cases limit <;> cases offset <;>
      simp [build_params, Dict.update, Dict.set, Dict.get?, Dict.contains]
  · intro l hl
    subst hl
    cases offset <;>
      simp [build_params, Dict.update, Dict.set, Dict.get?]
  · intro o ho
    subst ho
    cases limit <;>
      simp [build_params, Dict.update, Dict.set, Dict.get?]
  · intro k v hkv
    exact Dict.get?_update_mem extra _ k v hnd hkv
  · intro k hk
    exact Dict.get?_update_not_mem extra _ k hk

/-- C4: for every endpoint operation and every fixed HTTP exchange, the
blocking `SyncCinderClient` and the non-blocking `CinderClient` are
observationally equivalent — they issue the same verb, path, query
parameters and JSON body, and apply the same status check and
status-dependent deserialization, returning equal typed results or
failing with the same error. -/
theorem claim_C4_sync_async_equivalent (args : EndpointArgs) (r : HttpResponse) :
    CinderClient.buildRequest args = SyncCinderClient.buildRequest args ∧
    CinderClient.handleResponse args r = SyncCinderClient.handleResponse args r := by
  refine ⟨?_, ?_⟩ <;> cases args <;> rfl

/-- C5: entering the acquisition scope returns the client object itself; on
every exit path from the scope — a normal value or a raised error alike —
the underlying connection is released exactly once (for a body that does
not itself touch the connection); and the manual `close` operation on an
already-released client does not raise and releases nothing further. -/
theorem claim_C5_scoped_lifecycle {A : Type} (c : ClientObj)
    (body : ClientObj → Outcome A × ClientObj)
    (hopen : c.conn.closed = false)
    (hbody : ((body c.enterScope).2).conn = c.conn) :
    c.enterScope = c ∧
    ((withScope c body).2).conn.closed = true ∧
    ((withScope c body).2).conn.releases = c.conn.releases + 1 ∧
    (∀ d : ClientObj, d.close.close = d.close) := by
  have hconn : ((withScope c body).2).conn = c.conn.releaseConn := by
    cases hb : body c.enterScope with
    | mk out c1 =>
        rw [hb] at hbody
        have hb2 : c1.conn = c.conn := hbody
        simp [withScope, hb, ClientObj.exitScope, ClientObj.close, hb2]
  refine ⟨rfl, ?_, ?_, ?_⟩
  · rw [hconn]
    simp [ConnState.releaseConn, hopen]
  · rw [hconn]
    simp [ConnState.releaseConn, hopen]
  · intro d
    cases hc : d.conn.closed <;>
      simp [ClientObj.close, ConnState.releaseConn, hc]

/-- C7: client construction produces a header set equal to the caller's
mapping extended with `Authorization: Bearer <token>` and
`Content-Type: application/json` only for those of the two keys the caller
did not already supply; caller-supplied values are preserved unchanged; no
other key is touched; and the base URL is stored with all trailing slashes
stripped. -/
theorem claim_C7_header_merge (token base_url : String)
    (callerHeaders : Dict String) :
    (∀ k v, callerHeaders.get? k = some v →
      (mkHeaders token callerHeaders).get? k = some v) ∧
    (callerHeaders.contains "Authorization" = false →
      (mkHeaders token callerHeaders).get? "Authorization" =
        some ("Bearer " ++ token)) ∧
    (callerHeaders.contains "Content-Type" = false →
      (mkHeaders token callerHeaders).get? "Content-Type" =
        some "application/json") ∧
    (∀ k, k ≠ "Authorization" → k ≠ "Content-Type" →
      (mkHeaders token callerHeaders).get? k = callerHeaders.get? k) ∧
    (mkClient base_url token callerHeaders).headers =
      mkHeaders token callerHeaders ∧
    (mkClient base_url token callerHeaders).base_url = rstripSlash base_url ∧
    (∃ t : List Char, base_url.data = (rstripSlash base_url).data ++ t ∧
      ∀ c ∈ t, c = '/') ∧
    (∀ a, (rstripSlash base_url).data.getLast? = some a → a ≠ '/') := by
  refine ⟨?_, ?_, ?_, ?_, rfl, rfl, ?_, ?_⟩
  · intro k v hkv
    exact Dict.get?_setdefault_of_isSome _ _
      (Dict.get?_setdefault_of_isSome _ _ hkv)
  · intro hc
    have h0 : callerHeaders.get? "Authorization" = none := by
      rw [Dict.contains] at hc
      exact Option.not_isSome_iff_eq_none.mp (by simp [hc])
    exact Dict.get?_setdefault_of_isSome _ _
      (Dict.get?_setdefault_self_of_none _ h0)
  · intro hc
    have h0 : callerHeaders.get? "Content-Type" = none := by
      rw [Dict.contains] at hc
      exact Option.not_isSome_iff_eq_none.mp (by simp [hc])
    have h1 : (callerHeaders.setdefault "Authorization"
        ("Bearer " ++ token)).get? "Content-Type" = none := by
      rw [Dict.get?_setdefault_ne _ (by decide), h0]
    exact Dict.get?_setdefault_self_of_none _ h1
  · intro k hka hkc
    rw [show mkHeaders token callerHeaders =
        (callerHeaders.setdefault "Authorization"
          ("Bearer " ++ token)).setdefault "Content-Type" "application/json"
      from rfl]
    rw [Dict.get?_setdefault_ne _ (Ne.symm hkc),
        Dict.get?_setdefault_ne _ (Ne.symm hka)]
  · exact ⟨_, rstripSlash_decomp base_url, rstripSlash_trailing_all_slash base_url⟩
  · exact rstripSlash_no_trailing base_url

/-- C9: constructing either client with an explicit headers mapping mutates
the caller's own dict object in place — `self.headers` is bound to the very
reference the caller passed, not to a private copy, and after construction
the caller's object contains the `Authorization` and `Content-Type`
entries that were added as defaults. -/
theorem claim_C9_headers_mutated_in_place (h : Heap) (ref : Nat)
    (token : String) :
    (initBaseHeaders h ref token).2 = ref ∧
    (initBaseHeaders h ref token).1.read ref = mkHeaders token (h.read ref) ∧
    ((h.read ref).contains "Authorization" = false →
      ((initBaseHeaders h ref token).1.read ref).get? "Authorization" =
        some ("Bearer " ++ token)) ∧
    ((h.read ref).contains "Content-Type" = false →
      ((initBaseHeaders h ref token).1.read ref).get? "Content-Type" =
        some "application/json") := by
  have hread : (initBaseHeaders h ref token).1.read ref =
      mkHeaders token (h.read ref) := by
    simp [initBaseHeaders, Heap.read_write_self, mkHeaders]
  refine ⟨rfl, hread, ?_, ?_⟩
  · intro hc
    have h0 : (h.read ref).get? "Authorization" = none := by
      rw [Dict.contains] at hc
      exact Option.not_isSome_iff_eq_none.mp (by simp [hc])
    rw [hread]
    exact Dict.get?_setdefault_of_isSome _ _
      (Dict.get?_setdefault_self_of_none _ h0)
  · intro hc
    have h0 : (h.read ref).get? "Content-Type" = none := by
      rw [Dict.contains] at hc
      exact Option.not_isSome_iff_eq_none.mp (by simp [hc])
    rw [hread]
    have h1 : ((h.read ref).setdefault "Authorization"
        ("Bearer " ++ token)).get? "Content-Type" = none := by
      rw [Dict.get?_setdefault_ne _ (by decide), h0]
    exact Dict.get?_setdefault_self_of_none _ h1

/-- C6: whenever the token argument is absent and `CINDER_API_TOKEN` is
unavailable (unset or empty), or the base-URL argument is absent and
`CINDER_API_BASE_URL` is unavailable, `get_client` and `get_sync_client`
raise the configuration `ValueError` immediately; the empty request trace
in the result shows no HTTP request was attempted. -/
theorem claim_C6_config_error (token base_url : Option String)
    (env : String → Option String) :
    (token = none →
      (env "CINDER_API_TOKEN" = none ∨ env "CINDER_API_TOKEN" = some "") →
      get_client token base_url env =
          (.error (.valueError tokenMissingMessage), []) ∧
        get_sync_client token base_url env =
          (.error (.valueError tokenMissingMessage), [])) ∧
    (∀ t, token = some t → base_url = none →
      (env "CINDER_API_BASE_URL" = none ∨ env "CINDER_API_BASE_URL" = some "") →
      get_client token base_url env =
          (.error (.valueError baseUrlMissingMessage), []) ∧
        get_sync_client token base_url env =
          (.error (.valueError baseUrlMissingMessage), [])) ∧
    (∀ t, token = none → env "CINDER_API_TOKEN" = some t → t ≠ "" →
      base_url = none →
      (env "CINDER_API_BASE_URL" = none ∨ env "CINDER_API_BASE_URL" = some "") →
      get_client token base_url env =
          (.error (.valueError baseUrlMissingMessage), []) ∧
        get_sync_client token base_url env =
          (.error (.valueError baseUrlMissingMessage), [])) := by
  refine ⟨?_, ?_, ?_⟩
  · rintro rfl (henv | henv) <;>
      simp [get_client, get_sync_client, henv, except_bind_error, except_bind_ok]
  · rintro t rfl rfl (henv | henv) <;>
      simp [get_client, get_sync_client, henv, except_bind_error, except_bind_ok]
  · rintro t rfl htok hne rfl (henv | henv) <;>
      simp [get_client, get_sync_client, htok, hne, henv, except_bind_error, except_bind_ok]

/-- C10: the convenience constructors treat an environment variable set to
the empty string the same as an unset one (same `ValueError`), yet an
explicitly passed empty-string token or base URL is accepted without error
and used as-is; when both token and base URL are unavailable, the token
error is raised first (and it differs from the base-URL error). -/
theorem claim_C10_env_empty_vs_explicit (env : String → Option String) :
    (∀ base_url, env "CINDER_API_TOKEN" = some "" →
      get_client none base_url env =
          (.error (.valueError tokenMissingMessage), []) ∧
        get_sync_client none base_url env =
          (.error (.valueError tokenMissingMessage), [])) ∧
    (∀ base_url, env "CINDER_API_TOKEN" = none →
      get_client none base_url env =
          (.error (.valueError tokenMissingMessage), []) ∧
        get_sync_client none base_url env =
          (.error (.valueError tokenMissingMessage), [])) ∧
    (get_client (some "") (some "") env = (.ok (mkClient "" "" []), []) ∧
      get_sync_client (some "") (some "") env = (.ok (mkClient "" "" []), [])) ∧
    (∀ t, t ≠ "" → env "CINDER_API_TOKEN" = some t →
      env "CINDER_API_BASE_URL" = some "" →
      get_client none none env =
          (.error (.valueError baseUrlMissingMessage), []) ∧
        get_sync_client none none env =
          (.error (.valueError baseUrlMissingMessage), [])) ∧
    ((env "CINDER_API_TOKEN" = none ∨ env "CINDER_API_TOKEN" = some "") →
      (env "CINDER_API_BASE_URL" = none ∨ env "CINDER_API_BASE_URL" = some "") →
      get_client none none env =
          (.error (.valueError tokenMissingMessage), []) ∧
        get_sync_client none none env =
          (.error (.valueError tokenMissingMessage), [])) ∧
    tokenMissingMessage ≠ baseUrlMissingMessage := by
  refine ⟨?_, ?_, ?_, ?_, ?_, by decide⟩
  · intro base_url henv
    simp [get_client, get_sync_client, henv, except_bind_error, except_bind_ok]
  · intro base_url henv
    simp [get_client, get_sync_client, henv, except_bind_error, except_bind_ok]
  · simp [get_client, get_sync_client, except_bind_error, except_bind_ok]
  · intro t hne htok henv
    simp [get_client, get_sync_client, htok, hne, henv, except_bind_error, except_bind_ok]
  · rintro (henv | henv) _ <;>
      simp [get_client, get_sync_client, henv, except_bind_error, except_bind_ok]

/-- C1: for every endpoint method of both clients, a non-2xx response makes
the call fail with an HTTP-status error carrying the numeric status code
and the response body; a 2xx response is parsed into the declared typed
response, and the outcome is exactly the validation result — a validation
error (never an HTTP-status error) when the body's shape does not match
the expected schema, with no failure mode caught or recovered
internally. -/
theorem claim_C1_endpoint_contract (args : EndpointArgs) (r : HttpResponse) :
    (¬(200 ≤ r.status ∧ r.status < 300) →
      CinderClient.handleResponse args r =
          .error (.httpStatus r.status r.body) ∧
        SyncCinderClient.handleResponse args r =
          .error (.httpStatus r.status r.body)) ∧
    ((200 ≤ r.status ∧ r.status < 300) →
      CinderClient.handleResponse args r =
          (match declaredModel args r with
           | some m =>
               Except.mapError CinderError.validation
                 (Except.map (EndpointResult.typed m) (model_validate m r.body))
           | none => .ok (.raw r)) ∧
        SyncCinderClient.handleResponse args r =
          (match declaredModel args r with
           | some m =>
               Except.mapError CinderError.validation
                 (Except.map (EndpointResult.typed m) (model_validate m r.body))
           | none => .ok (.raw r))) := by
  constructor
  · intro h
    have hr : raiseForStatus r = .error (.httpStatus r.status r.body) := by
      simp [raiseForStatus, h]
    refine ⟨?_, ?_⟩ <;> cases args <;>
      simp [CinderClient.handleResponse, SyncCinderClient.handleResponse, hr,
        except_bind_error]
  · intro h
    have hr : raiseForStatus r = .ok () := by
      simp [raiseForStatus, h]
    refine ⟨?_, ?_⟩ <;> cases args <;>
      simp [CinderClient.handleResponse, SyncCinderClient.handleResponse, hr,
        except_bind_ok, validate_bind_typed, map_mapError_comm, declaredModel] <;>
      (by_cases h202 : r.status = 202 <;> simp [h202])

/-- C2: for every 2xx response to `send_event_sync` in both clients, the
status code is inspected before any parsing: a 202 response is parsed only
as `StatusOkResponse` and any other 2xx response only as `WorkflowResult`
— the outcome is exactly the one declared parse, so the 202 body is never
parsed as a `WorkflowResult` nor the 200 body as a `StatusOkResponse`. -/
theorem claim_C2_status_dependent_parse (event : TypedValue) (r : HttpResponse)
    (h2xx : 200 ≤ r.status ∧ r.status < 300) :
    (r.status = 202 →
      CinderClient.handleResponse (.send_event_sync event) r =
          Except.mapError CinderError.validation
            (Except.map (EndpointResult.typed .statusOkResponse)
              (model_validate .statusOkResponse r.body)) ∧
        SyncCinderClient.handleResponse (.send_event_sync event) r =
          Except.mapError CinderError.validation
            (Except.map (EndpointResult.typed .statusOkResponse)
              (model_validate .statusOkResponse r.body))) ∧
    (r.status ≠ 202 →
      CinderClient.handleResponse (.send_event_sync event) r =
          Except.mapError CinderError.validation
            (Except.map (EndpointResult.typed .workflowResult)
              (model_validate .workflowResult r.body)) ∧
        SyncCinderClient.handleResponse (.send_event_sync event) r =
          Except.mapError CinderError.validation
            (Except.map (EndpointResult.typed .workflowResult)
              (model_validate .workflowResult r.body))) := by
  have hr : raiseForStatus r = .ok () := by
    simp [raiseForStatus, h2xx]
  constructor
  · intro h202
    refine ⟨?_, ?_⟩ <;>
      simp [CinderClient.handleResponse, SyncCinderClient.handleResponse, hr,
        except_bind_ok, validate_bind_typed, map_mapError_comm, h202]
  · intro h202
    refine ⟨?_, ?_⟩ <;>
      simp [CinderClient.handleResponse, SyncCinderClient.handleResponse, hr,
        except_bind_ok, validate_bind_typed, map_mapError_comm, h202]

/-- C8: for every typed input to a `create_X`-style method, the JSON body
sent contains a key exactly for each field whose value is present (absent
or unset optional fields are omitted, never emitted as null), and every
valid 2xx JSON body parses into the declared output type with all of its
fields populated from the JSON: every field of the parsed result takes its
value from the body, every required schema field is present, and a schema
field is populated exactly when the body contains it. -/
theorem claim_C8_serialize_parse (v : TypedValue) :
    (∀ (k : String) (j : Json),
      ((k, j) ∈ model_dump_fields v ↔ (k, some j) ∈ v)) ∧
    ((CinderClient.buildRequest (.create_report v)).body = some (model_dump v) ∧
      (CinderClient.buildRequest (.create_decision v)).body = some (model_dump v) ∧
      (CinderClient.buildRequest (.send_event v)).body = some (model_dump v) ∧
      (CinderClient.buildRequest (.send_event_sync v)).body =
        some (model_dump v) ∧
      (SyncCinderClient.buildRequest (.create_report v)).body =
        some (model_dump v) ∧
      (SyncCinderClient.buildRequest (.create_decision v)).body =
        some (model_dump v)) ∧
    (∀ ent rel : Option (List Json),
      (CinderClient.buildRequest (.upsert ent rel)).body =
        some (model_dump [("entities", ent.map Json.arr),
                          ("relationships", rel.map Json.arr)])) ∧
    (∀ (m : ModelName) (fieldsJ out : Dict Json),
      model_validate m (.obj fieldsJ) = .ok out →
        (∀ kv ∈ out, fieldsJ.get? kv.1 = some kv.2) ∧
        (∀ f ∈ modelSchema m,
          ((∃ w, (f.name, w) ∈ out) ↔ fieldsJ.contains f.name = true)) ∧
        (∀ f ∈ modelSchema m, f.required = true →
          fieldsJ.contains f.name = true)) ∧
    (∀ (m : ModelName) (fieldsJ : Dict Json),
      matchesSchema (modelSchema m) fieldsJ = true →
        ∃ out, model_validate m (.obj fieldsJ) = .ok out) := by
  refine ⟨?_, ⟨rfl, rfl, rfl, rfl, rfl, rfl⟩, fun ent rel => rfl, ?_, ?_⟩
  · intro k j
    constructor
    · intro hmem
      obtain ⟨⟨k1, v1⟩, hmem1, hf⟩ := List.mem_filterMap.mp hmem
      cases v1 with
      | none => simp at hf
      | some j1 =>
          have hp : (k1, j1) = (k, j) := Option.some.inj hf
          have hk : k1 = k := congrArg Prod.fst hp
          have hj : j1 = j := congrArg Prod.snd hp
          subst hk
          subst hj
          exact hmem1
    · intro hmem
      exact List.mem_filterMap.mpr ⟨(k, some j), hmem, rfl⟩
  · intro m fieldsJ out hok
    exact validateFields_ok_spec (modelSchema m) fieldsJ out hok
  · intro m fieldsJ hm
    exact (validateFields_matches (modelSchema m) fieldsJ).mpr hm

/-! ## Witnesses -/

/-- Witness for C1: a 404 on `get_graph_schema` fails with the status error
carrying 404 and the body, and a well-formed 200 body parses into the
schema response. -/
theorem claim_C1_endpoint_contract_witness :
    CinderClient.handleResponse .get_graph_schema ⟨404, .null⟩ =
        .error (.httpStatus 404 .null) ∧
      CinderClient.handleResponse .get_graph_schema
          ⟨200, .obj [("entity_schemas", .arr []),
                      ("relationship_schemas", .arr [])]⟩ =
        .ok (.typed .schemaResponse
          [("entity_schemas", .arr []), ("relationship_schemas", .arr [])]) := by
  constructor
  · exact ((claim_C1_endpoint_contract .get_graph_schema ⟨404, .null⟩).1
      (by decide)).1
  · have h := (claim_C1_endpoint_contract .get_graph_schema
        ⟨200, .obj [("entity_schemas", .arr []),
                    ("relationship_schemas", .arr [])]⟩).2 (by decide)
    rw [h.1]
    rfl

/-- Witness for C2: a 202 body of the StatusOk shape (which is not of the
WorkflowResult shape) parses successfully, and a 200 body of the
WorkflowResult shape parses successfully. -/
theorem claim_C2_status_dependent_parse_witness :
    CinderClient.handleResponse (.send_event_sync [])
        ⟨202, .obj [("status", .str "ok")]⟩ =
        .ok (.typed .statusOkResponse [("status", .str "ok")]) ∧
      SyncCinderClient.handleResponse (.send_event_sync [])
          ⟨200, .obj [("path", .str "wf/1")]⟩ =
        .ok (.typed .workflowResult [("path", .str "wf/1")]) := by
  constructor
  · have h := (claim_C2_status_dependent_parse []
        ⟨202, .obj [("status", .str "ok")]⟩ (by decide)).1 rfl
    rw [h.1]
    rfl
  · have h := (claim_C2_status_dependent_parse []
        ⟨200, .obj [("path", .str "wf/1")]⟩ (by decide)).2 (by decide)
    rw [h.2]
    rfl

/-- Witness for C3: a colliding `limit` filter overwrites the supplied
limit, and the empty call produces the empty mapping. -/
theorem claim_C3_build_params_witness :
    (build_params (some 10) (some 0) [("limit", Json.num 99)]).get? "limit" =
        some (Json.num 99) ∧
      build_params none none [] = [] := by
  have h := claim_C3_build_params (some 10) (some 0) [("limit", Json.num 99)]
    (by decide)
  exact ⟨h.2.2.2.2.2.2.1 "limit" (Json.num 99) (List.mem_cons_self _ _), h.1⟩

/-- Witness for C5: a scope whose body raises releases the connection
exactly once. -/
theorem claim_C5_scoped_lifecycle_witness :
    ClientObj.enterScope ⟨⟨"", "", []⟩, ⟨false, 0⟩⟩ =
        ⟨⟨"", "", []⟩, ⟨false, 0⟩⟩ ∧
      ((withScope (A := Nat) ⟨⟨"", "", []⟩, ⟨false, 0⟩⟩
          (fun cl => (Outcome.raised (.httpStatus 500 .null), cl))).2).conn.closed =
        true ∧
      ((withScope (A := Nat) ⟨⟨"", "", []⟩, ⟨false, 0⟩⟩
          (fun cl => (Outcome.raised (.httpStatus 500 .null), cl))).2).conn.releases =
        1 := by
  have h := claim_C5_scoped_lifecycle (A := Nat) ⟨⟨"", "", []⟩, ⟨false, 0⟩⟩
    (fun cl => (Outcome.raised (.httpStatus 500 .null), cl)) rfl rfl
  exact ⟨h.1, h.2.1, h.2.2.1⟩

/-- Witness for C6: with an empty environment and no arguments, the token
`ValueError` is raised and no HTTP request is issued. -/
theorem claim_C6_config_error_witness :
    get_client none none (fun _ => none) =
      (.error (.valueError tokenMissingMessage), []) := by
  exact ((claim_C6_config_error none none (fun _ => none)).1 rfl (Or.inl rfl)).1

/-- Witness for C7: with no caller headers, both defaults are applied. -/
theorem claim_C7_header_merge_witness :
    (mkHeaders "tok" []).get? "Authorization" = some ("Bearer " ++ "tok") ∧
      (mkHeaders "tok" []).get? "Content-Type" = some "application/json" := by
  have h := claim_C7_header_merge "tok" "" []
  exact ⟨h.2.1 rfl, h.2.2.1 rfl⟩

/-- Witness for C8: an unset optional field is omitted from the dump, and a
validated field takes its value from the JSON body. -/
theorem claim_C8_serialize_parse_witness :
    (("a", Json.str "x") ∈
        model_dump_fields [("a", some (Json.str "x")), ("b", none)]) ∧
      Dict.get? [("entity_schemas", Json.arr []),
                 ("relationship_schemas", Json.arr [])] "entity_schemas" =
        some (Json.arr []) := by
  constructor
  · exact ((claim_C8_serialize_parse
      [("a", some (Json.str "x")), ("b", none)]).1 "a"
        (Json.str "x")).mpr (List.mem_cons_self _ _)
  · have h := (claim_C8_serialize_parse []).2.2.2.1 .schemaResponse
        [("entity_schemas", Json.arr []), ("relationship_schemas", Json.arr [])]
        [("entity_schemas", Json.arr []), ("relationship_schemas", Json.arr [])]
        rfl
    exact h.1 _ (List.mem_cons_self _ _)

/-- Witness for C9: starting from an empty caller dict, after construction
the caller's own object holds the Authorization entry. -/
theorem claim_C9_headers_mutated_in_place_witness :
    ((initBaseHeaders (fun _ => []) 0 "tok").1.read 0).get? "Authorization" =
      some ("Bearer " ++ "tok") := by
  exact (claim_C9_headers_mutated_in_place (fun _ => []) 0 "tok").2.2.1 rfl

/-- Witness for C10: an environment with every variable set to the empty
string yields the token error first. -/
theorem claim_C10_env_empty_vs_explicit_witness :
    get_client none none (fun _ => some "") =
      (.error (.valueError tokenMissingMessage), []) := by
  exact ((claim_C10_env_empty_vs_explicit (fun _ => some "")).1 none rfl).1

end Cinder

